import Mathlib

/-!
# Verification of `community/chemistry/h2_iqpe.ipynb`

A shallow embedding of the H2 ground-state-energy sweep notebook.  The
notebook builds a configuration dictionary, enumerates 2 algorithms × 21
inter-atomic distances, farms each pair out to a process pool through
`subrountine` (sic, the source's spelling), collects results into
pre-allocated numpy arrays, and plots two figures.

Modelling choices, each noted again at the definition it concerns:
* the nested Python dict `qiskit_chemistry_dict` becomes a record of
  records mirroring its keys;
* floating point becomes exact rational arithmetic (`ℚ`);
* the external solver `QiskitChemistry().run` is an uninterpreted
  parameter that may raise (`Except`);
* the process pool is modelled by its observable behaviour: each
  `as_completed` pass consumes each future in the current `futures` list
  exactly once, in an arbitrary completion order (a permutation of the
  list), and `future.result()` returns the value `subrountine` produced
  (re-raising its exception if it raised);
* `np.empty` arrays become `Option ℚ`-valued maps, `none` marking a slot
  that no write has touched yet;
* Python object identity (needed for the deep-copy claim) is modelled by
  a small heap of dictionary cells addressed by allocation order.
-/

namespace H2IQPE

/-! ## The configuration dictionary

`qiskit_chemistry_dict` in the source is a nested dict with fixed keys;
we mirror each section as a record. -/

/-- The `'driver'` section: `{'name': 'PYSCF'}`. -/
structure DriverSection where
  name : String
deriving DecidableEq, Repr

/-- The `'PYSCF'` section: `{'atom': '', 'basis': 'sto3g'}`. -/
structure PyscfSection where
  atom : String
  basis : String
deriving DecidableEq, Repr

/-- The `'operator'` section:
`{'name': 'hamiltonian', 'transformation': 'full', 'qubit_mapping': 'parity'}`. -/
structure OperatorSection where
  name : String
  transformation : String
  qubit_mapping : String
deriving DecidableEq, Repr

/-- The `'initial_state'` section: `{'name': 'HartreeFock'}`. -/
structure InitialStateSection where
  name : String
deriving DecidableEq, Repr

/-- An algorithm dict from the `algorithms` list.  The IQPE entry carries
four extra keys beside `name`; the `ExactEigensolver` entry (and the
initial `'algorithm': {'name': ''}` placeholder) omits them, which we
model with `Option` fields defaulting to `none`. -/
structure AlgorithmConfig where
  name : String
  num_iterations : Option Nat := none
  num_time_slices : Option Nat := none
  expansion_mode : Option String := none
  expansion_order : Option Nat := none
deriving DecidableEq, Repr

/-- The whole `qiskit_chemistry_dict` value. -/
structure ChemistryDict where
  driver : DriverSection
  pyscf : PyscfSection
  operator : OperatorSection
  algorithm : AlgorithmConfig
  initial_state : InitialStateSection
deriving DecidableEq, Repr

/-- The shared input dictionary assembled in the first code cell. -/
def qiskit_chemistry_dict : ChemistryDict :=
  { driver := { name := "PYSCF" }
    pyscf := { atom := "", basis := "sto3g" }
    operator := { name := "hamiltonian", transformation := "full",
                  qubit_mapping := "parity" }
    algorithm := { name := "" }
    initial_state := { name := "HartreeFock" } }

/-! ## Molecule template, algorithms, backends, sweep constants -/

/-- Rendering of the number substituted into the molecule template.
Python renders the float `d/2` with `str`; we render the exact rational,
which preserves the information content (the value substituted). -/
def fmtArg (q : ℚ) : String := toString q.num ++ "/" ++ toString q.den

/-- `molecule.format(z)` for the template `'H .0 .0 -{0}; H .0 .0 {0}'`:
the substituted value appears once with a leading minus sign and once
bare. -/
def molecule (z : ℚ) : String :=
  "H .0 .0 -" ++ fmtArg z ++ "; H .0 .0 " ++ fmtArg z

/-- The geometry the template `'H .0 .0 -{0}; H .0 .0 {0}'` denotes when
`z` is substituted: a list of (element, x, y, z) atoms, two hydrogens on
the z-axis at `-z` and `+z`. -/
def moleculeGeometry (z : ℚ) : List (String × ℚ × ℚ × ℚ) :=
  [("H", 0, 0, -z), ("H", 0, 0, z)]

/-- Simulation backends.  Only `Aer.get_backend('qasm_simulator')`
occurs; `None` is modelled by `Option`. -/
inductive Backend where
  | qasm_simulator
deriving DecidableEq, Repr

/-- The `algorithms` list from the first cell. -/
def algorithms : List AlgorithmConfig :=
  [ { name := "IQPE"
      num_iterations := some 16
      num_time_slices := some 3000
      expansion_mode := some "trotter"
      expansion_order := some 1 },
    { name := "ExactEigensolver" } ]

/-- The `backends` list from the first cell, index-aligned with
`algorithms`. -/
def backends : List (Option Backend) :=
  [some Backend.qasm_simulator, none]

/-- `algorithms[j]` (only ever read at `j < len(algorithms)`). -/
def algorithmAt (j : Nat) : AlgorithmConfig :=
  algorithms.getD j { name := "" }

/-- `backends[j]` (only ever read at `j < len(backends)`). -/
def backendAt (j : Nat) : Option Backend :=
  backends.getD j none

/-- `start = 0.5`, the first inter-atomic distance. -/
def start : ℚ := 1/2

/-- `by = 0.5`, the total distance increase (`by` is a Lean keyword, so
the name carries a trailing underscore). -/
def by_ : ℚ := 1/2

/-- `steps = 20`, the number of increments; `steps + 1 = 21` points. -/
def steps : Nat := 20

/-- `d = start + i*by/steps`, the distance submitted for step `i`. -/
def distanceAt (i : Nat) : ℚ := start + (i : ℚ) * by_ / (steps : ℚ)

/-! ## The unit of work: `subrountine` -/

/-- The two scalars `subrountine` reads off the solver's result dict. -/
structure SolverResult where
  energy : ℚ
  hf_energy : ℚ
deriving DecidableEq, Repr

/-- The external `QiskitChemistry().run(dict, backend=backend)` call,
uninterpreted: any function from the (mutated) dictionary and backend to
either a result or a raised exception of type `E`. -/
abbrev Solver (E : Type) := ChemistryDict → Option Backend → Except E SolverResult

/-- The dictionary `subrountine` hands to the solver: its argument with
`qiskit_chemistry_dict['PYSCF']['atom'] = molecule.format(d/2)` and
`qiskit_chemistry_dict['algorithm'] = algorithm` applied. -/
def subrountineConfig (qcd : ChemistryDict) (d : ℚ)
    (algorithm : AlgorithmConfig) : ChemistryDict :=
  { qcd with
    pyscf := { qcd.pyscf with atom := molecule (d/2) }
    algorithm := algorithm }

/-- `subrountine(i, qiskit_chemistry_dict, d, backend, algorithm)`.
Beside the returned tuple (or raised exception) we record the trace of
solver invocations — the body contains the single call
`solver.run(qiskit_chemistry_dict, backend=backend)`, so the trace holds
the one (dictionary, backend) pair it was given. -/
def subrountine {E : Type} (solver : Solver E) (i : Nat)
    (qcd : ChemistryDict) (d : ℚ) (backend : Option Backend)
    (algorithm : AlgorithmConfig) :
    Except E (Nat × ℚ × ℚ × ℚ) × List (ChemistryDict × Option Backend) :=
  let cfg := subrountineConfig qcd d algorithm
  match solver cfg backend with
  | .ok r => (.ok (i, d, r.energy, r.hf_energy), [(cfg, backend)])
  | .error e => (.error e, [(cfg, backend)])

/-! ## Sweep enumeration and submission

The submission loop:
```
futures = []
for j in range(len(algorithms)):
    algorithm = algorithms[j]; backend = backends[j]
    for i in range(steps+1):
        d = start + i*by/steps
        future = executor.submit(subrountine, i,
                                 copy.deepcopy(qiskit_chemistry_dict),
                                 d, backend, algorithm)
        futures.append(future)
    for future in concurrent.futures.as_completed(futures):
        i, d, energy, hf_energy = future.result()
        energies[j][i] = energy
        hf_energies[i] = hf_energy
        distances[i] = d
```
Note the aggregation loop is nested inside the `j` loop and iterates the
whole `futures` list accumulated so far. -/

/-- One submitted future: the arguments `executor.submit` passed to
`subrountine` (the deep copy of the shared dictionary appearing as the
value `cfg`). -/
structure Task where
  i : Nat
  cfg : ChemistryDict
  d : ℚ
  backend : Option Backend
  algorithm : AlgorithmConfig
deriving DecidableEq, Repr

/-- The future submitted for algorithm index `j` at step `i`: the
arguments of one `executor.submit` call. -/
def taskAt (qcd : ChemistryDict) (j i : Nat) : Task :=
  { i := i, cfg := qcd, d := distanceAt i,
    backend := backendAt j, algorithm := algorithmAt j }

/-- The 21 futures the inner `for i in range(steps+1)` loop submits for
algorithm index `j`, in submission order. -/
def tasksForAlg (qcd : ChemistryDict) (j : Nat) : List Task :=
  (List.range (steps + 1)).map (taskAt qcd j)

/-- The contents of the `futures` list at the moment the `as_completed`
loop of pass `j` begins: all futures submitted so far, because the list
is never cleared between passes. -/
def futuresUpTo (qcd : ChemistryDict) (j : Nat) : List Task :=
  (List.range (j + 1)).flatMap (tasksForAlg qcd)

/-! ## Result arrays and the aggregation loop -/

/-- The three pre-allocated numpy arrays.  `np.empty` leaves slots
uninitialized; we model a slot as `Option ℚ`, `none` until first
written.  (Slots are total maps over `Nat` indices; only
`j < 2`, `i < steps+1` are ever used.) -/
structure Arrays where
  energies : Nat → Nat → Option ℚ
  hf_energies : Nat → Option ℚ
  distances : Nat → Option ℚ

/-- The arrays right after allocation: nothing written yet. -/
def Arrays.empty : Arrays :=
  { energies := fun _ _ => none
    hf_energies := fun _ => none
    distances := fun _ => none }

/-- The three assignments the aggregation loop body performs for an
unpacked tuple `(i, d, energy, hf_energy)` during pass `j`:
`energies[j][i] = energy; hf_energies[i] = hf_energy; distances[i] = d`.
Note the row is the pass index `j`, taken from the enclosing loop. -/
def Arrays.write (st : Arrays) (j i : Nat) (d energy hf : ℚ) : Arrays :=
  { energies := fun j0 i0 =>
      if j0 = j ∧ i0 = i then some energy else st.energies j0 i0
    hf_energies := fun i0 => if i0 = i then some hf else st.hf_energies i0
    distances := fun i0 => if i0 = i then some d else st.distances i0 }

/-- `future.result()` for the future holding task `t`: the tuple
`subrountine` returned, or its exception re-raised. -/
def runTask {E : Type} (solver : Solver E) (t : Task) :
    Except E (Nat × ℚ × ℚ × ℚ) :=
  (subrountine solver t.i t.cfg t.d t.backend t.algorithm).1

/-- One `as_completed` pass of the aggregation loop at pass index `j`,
consuming the futures in completion order `ord`.  Each consumption
unpacks `future.result()` and performs the three writes; an exception
raised by `result()` propagates immediately (there is no handler), the
array state reached so far surviving in place. -/
def aggregatePass {E : Type} (solver : Solver E) (j : Nat) :
    List Task → Arrays → Arrays × Option E
  | [], st => (st, none)
  | t :: rest, st =>
    match runTask solver t with
    | .error e => (st, some e)
    | .ok (i, d, energy, hf) =>
      aggregatePass solver j rest (st.write j i d energy hf)

/-- The whole double loop over `j = 0, 1`: pass 0 aggregates in
completion order `ord0` (a permutation of the 21 futures submitted so
far), then — the `futures` list never being reset — pass 1 aggregates
all 42 futures in completion order `ord1`.  An exception from pass 0
aborts before pass 1. -/
def runSweepAgg {E : Type} (solver : Solver E)
    (ord0 ord1 : List Task) : Arrays × Option E :=
  match aggregatePass solver 0 ord0 Arrays.empty with
  | (st, some e) => (st, some e)
  | (st, none) => aggregatePass solver 1 ord1 st

/-! ## Heap model of the deep copies

To express that no worker's mutation reaches the shared dictionary we
give dictionaries object identity: a heap of cells addressed by
allocation order.  The shared `qiskit_chemistry_dict` lives at address
0; every `executor.submit` call evaluates
`copy.deepcopy(qiskit_chemistry_dict)` in the driver, which allocates a
fresh cell holding a copy of the shared cell's current value. -/

/-- A heap of dictionary objects; the address of a cell is its index. -/
structure Heap where
  cells : List ChemistryDict
deriving DecidableEq, Repr

/-- Read the cell at address `a`. -/
def Heap.get (h : Heap) (a : Nat) : ChemistryDict :=
  h.cells.getD a qiskit_chemistry_dict

/-- Overwrite the cell at address `a` in place. -/
def Heap.set (h : Heap) (a : Nat) (v : ChemistryDict) : Heap :=
  { cells := h.cells.set a v }

/-- `copy.deepcopy`: allocate a fresh cell holding the value at `a`;
returns the new heap and the fresh address. -/
def Heap.deepcopy (h : Heap) (a : Nat) : Heap × Nat :=
  ({ cells := h.cells ++ [h.get a] }, h.cells.length)

/-- A submitted future as the worker sees it: like `Task` but holding
the address of its private deep-copied dictionary instead of a value. -/
structure STask where
  i : Nat
  addr : Nat
  d : ℚ
  backend : Option Backend
  algorithm : AlgorithmConfig
deriving DecidableEq, Repr

/-- The submission loops with the deep copies made explicit: for
`j = 0, 1` and `i = 0..steps`, deep-copy the shared dictionary at
address `sharedAddr` and record the submitted task.  Returns the heap
after all 42 allocations and the submission-ordered task list. -/
def submitAll (h : Heap) (sharedAddr : Nat) : Heap × List STask :=
  (List.range (List.length algorithms)).foldl
    (fun acc j =>
      (List.range (steps + 1)).foldl
        (fun acc2 i =>
          let copied := acc2.1.deepcopy sharedAddr
          (copied.1,
           acc2.2 ++ [{ i := i, addr := copied.2, d := distanceAt i,
                        backend := backendAt j, algorithm := algorithmAt j }]))
        acc)
    (h, [])

/-- The dictionary mutation each worker performs before calling the
solver: the two assignments in `subrountine`'s body, applied to the
worker's own cell.  (The solver call itself does not write to the
driver's heap.) -/
def runWorkerHeap (h : Heap) (t : STask) : Heap :=
  h.set t.addr (subrountineConfig (h.get t.addr) t.d t.algorithm)

/-- All workers' dictionary mutations applied to the heap. -/
def runWorkersHeap (h : Heap) (ts : List STask) : Heap :=
  ts.foldl runWorkerHeap h

/-- The driver's heap at the start of the sweep: only the shared
dictionary exists, at address 0. -/
def initialHeap : Heap := { cells := [qiskit_chemistry_dict] }

/-- The driver's heap after the whole sweep: every submission
deep-copied the shared cell and every worker then mutated its own
copy. -/
def heapAfterSweep : Heap :=
  runWorkersHeap (submitAll initialHeap 0).1 (submitAll initialHeap 0).2

/-! ## The difference plot

The final cell:
```
pylab.plot(distances, np.subtract(hf_energies, energies[1]), label='Hartree-Fock')
pylab.plot(distances, np.subtract(energies[0], energies[1]), label='IQPE')
```
We model a `pylab.plot(xs, ys, label=l)` call by the curve it draws and
`np.subtract` by pointwise subtraction. -/

/-- One plotted curve: x-data, y-data (both indexed arrays) and its
legend label. -/
structure Curve where
  xs : Nat → ℚ
  ys : Nat → ℚ
  label : String

/-- The two curves the difference-plot cell draws, in order, given the
arrays in scope at that point. -/
def diffPlotCell (distances hf_energies : Nat → ℚ)
    (energies : Nat → Nat → ℚ) : List Curve :=
  [ { xs := distances
      ys := fun k => hf_energies k - energies 1 k
      label := "Hartree-Fock" },
    { xs := distances
      ys := fun k => energies 0 k - energies 1 k
      label := "IQPE" } ]

/-! ## Concrete instantiations used by witnesses and counterexamples -/

/-- A fixed solver result used by witnesses. -/
def wRes : SolverResult := { energy := -1, hf_energy := -2 }

/-- A solver that always succeeds with `wRes`. -/
def constOkSolver : Solver Unit := fun _ _ => .ok wRes

/-- A solver that always raises. -/
def failSolver : Solver String := fun _ _ => .error "solver raised"

/-- A solver whose ground-state energy depends on which algorithm the
dictionary selects (-10 for IQPE, -20 for ExactEigensolver), so one can
observe which algorithm's result a slot ends up holding. -/
def sepSolver : Solver String := fun cfg _ =>
  .ok { energy := if cfg.algorithm.name = "IQPE" then (-10 : ℚ) else -20
        hf_energy := -5 }

/-- The future submitted for algorithm index 0 (IQPE) at step 0. -/
def iqpeTask0 : Task :=
  { i := 0, cfg := qiskit_chemistry_dict, d := distanceAt 0,
    backend := backendAt 0, algorithm := algorithmAt 0 }

/-- A completion order for the pass-1 `as_completed` loop in which the
21 `ExactEigensolver` futures are yielded before the 21 re-yielded IQPE
futures.  It is a permutation of the full futures list, hence a
realizable completion order (for instance, all 42 futures have already
finished when `as_completed` is called, and set-iteration order happens
to list the pass-1 futures first). -/
def ord1Swapped : List Task :=
  tasksForAlg qiskit_chemistry_dict 1 ++ tasksForAlg qiskit_chemistry_dict 0

/-! ## Helper lemmas -/

theorem futuresUpTo_zero (qcd : ChemistryDict) :
    futuresUpTo qcd 0 = tasksForAlg qcd 0 := by
  simp [futuresUpTo, List.range_succ]

theorem futuresUpTo_one (qcd : ChemistryDict) :
    futuresUpTo qcd 1 = tasksForAlg qcd 0 ++ tasksForAlg qcd 1 := by
  simp [futuresUpTo, List.range_succ]

theorem runTask_eq {E : Type} (solver : Solver E) (t : Task) :
    runTask solver t =
      match solver (subrountineConfig t.cfg t.d t.algorithm) t.backend with
      | .ok r => .ok (t.i, t.d, r.energy, r.hf_energy)
      | .error e => .error e := by
  simp only [runTask, subrountine]
  cases solver (subrountineConfig t.cfg t.d t.algorithm) t.backend <;> rfl

theorem runTask_ok_i {E : Type} (solver : Solver E) (t : Task)
    (v : Nat × ℚ × ℚ × ℚ) (h : runTask solver t = .ok v) : v.1 = t.i := by
  rw [runTask_eq] at h
  cases hs : solver (subrountineConfig t.cfg t.d t.algorithm) t.backend <;>
    rw [hs] at h
  · cases h
  · cases h
    rfl

theorem write_isSome_mono (st : Arrays) (j i : Nat) (d en hf : ℚ) (a b : Nat) :
    ((st.energies a b).isSome → ((st.write j i d en hf).energies a b).isSome)
    ∧ ((st.hf_energies b).isSome → ((st.write j i d en hf).hf_energies b).isSome)
    ∧ ((st.distances b).isSome → ((st.write j i d en hf).distances b).isSome) := by
  refine ⟨?_, ?_, ?_⟩ <;> simp only [Arrays.write] <;> intro h <;> split <;> simp [h]

theorem aggregatePass_no_error {E : Type} (solver : Solver E) (j : Nat) :
    ∀ (ord : List Task) (st : Arrays),
      (∀ t ∈ ord, ∃ v, runTask solver t = .ok v) →
      (aggregatePass solver j ord st).2 = none
  | [], st, _ => rfl
  | t :: rest, st, hok => by
    obtain ⟨v, hv⟩ := hok t (List.mem_cons_self t rest)
    obtain ⟨i0, d0, en0, hf0⟩ := v
    simp only [aggregatePass, hv]
    exact aggregatePass_no_error solver j rest _
      (fun u hu => hok u (List.mem_cons_of_mem _ hu))

theorem aggregatePass_isSome_mono {E : Type} (solver : Solver E) (j : Nat) :
    ∀ (ord : List Task) (st : Arrays) (a b : Nat),
      (((st.energies a b).isSome →
          ((aggregatePass solver j ord st).1.energies a b).isSome)
      ∧ ((st.hf_energies b).isSome →
          ((aggregatePass solver j ord st).1.hf_energies b).isSome)
      ∧ ((st.distances b).isSome →
          ((aggregatePass solver j ord st).1.distances b).isSome))
  | [], st, a, b => ⟨id, id, id⟩
  | t :: rest, st, a, b => by
    cases hv : runTask solver t with
    | error e =>
      simp only [aggregatePass, hv]
      exact ⟨id, id, id⟩
    | ok v =>
      obtain ⟨i0, d0, en0, hf0⟩ := v
      simp only [aggregatePass, hv]
      obtain ⟨m1, m2, m3⟩ :=
        aggregatePass_isSome_mono solver j rest (st.write j i0 d0 en0 hf0) a b
      obtain ⟨w1, w2, w3⟩ := write_isSome_mono st j i0 d0 en0 hf0 a b
      exact ⟨fun h => m1 (w1 h), fun h => m2 (w2 h), fun h => m3 (w3 h)⟩

theorem aggregatePass_covers {E : Type} (solver : Solver E) (j : Nat) :
    ∀ (ord : List Task) (st : Arrays) (t : Task),
      t ∈ ord → (∀ u ∈ ord, ∃ v, runTask solver u = .ok v) →
      (((aggregatePass solver j ord st).1.energies j t.i).isSome
      ∧ ((aggregatePass solver j ord st).1.hf_energies t.i).isSome
      ∧ ((aggregatePass solver j ord st).1.distances t.i).isSome)
  | [], _, t, htm, _ => absurd htm (List.not_mem_nil t)
  | u :: rest, st, t, htm, hok => by
    obtain ⟨v, hv⟩ := hok u (List.mem_cons_self u rest)
    have hvi := runTask_ok_i solver u v hv
    obtain ⟨i0, d0, en0, hf0⟩ := v
    simp only at hvi
    subst hvi
    simp only [aggregatePass, hv]
    rcases List.mem_cons.mp htm with rfl | hmem
    · obtain ⟨m1, m2, m3⟩ := aggregatePass_isSome_mono solver j rest
        (st.write j t.i d0 en0 hf0) j t.i
      refine ⟨m1 ?_, m2 ?_, m3 ?_⟩ <;> simp [Arrays.write]
    · exact aggregatePass_covers solver j rest _ t hmem
        (fun u2 hu2 => hok u2 (List.mem_cons_of_mem _ hu2))

/-! ## Claim theorems -/

/-- C5: the configuration shared across all runs specifies driver name
`PYSCF`, basis set `sto3g`, operator name `hamiltonian` with
transformation `full` and qubit mapping `parity`, and initial state
`HartreeFock`. -/
theorem shared_config_contents :
    qiskit_chemistry_dict.driver.name = "PYSCF"
    ∧ qiskit_chemistry_dict.pyscf.basis = "sto3g"
    ∧ qiskit_chemistry_dict.operator.name = "hamiltonian"
    ∧ qiskit_chemistry_dict.operator.transformation = "full"
    ∧ qiskit_chemistry_dict.operator.qubit_mapping = "parity"
    ∧ qiskit_chemistry_dict.initial_state.name = "HartreeFock" :=
  ⟨rfl, rfl, rfl, rfl, rfl, rfl⟩

/-- C10: a unit of work mutates only the `'atom'` value under the
`'PYSCF'` key and the top-level `'algorithm'` value of the dictionary it
receives; the `'driver'`, `'operator'` and `'initial_state'` sections
and the basis setting reach the solver exactly as assembled, the solver
being handed exactly the so-mutated dictionary. -/
theorem subrountine_mutates_only_atom_and_algorithm {E : Type}
    (solver : Solver E) (i : Nat) (qcd : ChemistryDict) (d : ℚ)
    (backend : Option Backend) (alg : AlgorithmConfig) :
    (subrountineConfig qcd d alg).driver = qcd.driver
    ∧ (subrountineConfig qcd d alg).operator = qcd.operator
    ∧ (subrountineConfig qcd d alg).initial_state = qcd.initial_state
    ∧ (subrountineConfig qcd d alg).pyscf.basis = qcd.pyscf.basis
    ∧ (subrountineConfig qcd d alg).pyscf.atom = molecule (d/2)
    ∧ (subrountineConfig qcd d alg).algorithm = alg
    ∧ (subrountine solver i qcd d backend alg).2
        = [(subrountineConfig qcd d alg, backend)] := by
  refine ⟨rfl, rfl, rfl, rfl, rfl, rfl, ?_⟩
  simp only [subrountine]
  cases solver (subrountineConfig qcd d alg) backend <;> rfl

/-- C2: a unit of work sets the configuration's molecule geometry to two
hydrogen atoms at `z = -d/2` and `z = +d/2` (separation `d`), sets its
algorithm entry to the given algorithm, invokes the solver exactly once
(the invocation trace is the single call on the mutated dictionary), and
returns `(i, d, energy, hf_energy)` with `i` and `d` passed through
unchanged. -/
theorem subrountine_unit_of_work {E : Type} (solver : Solver E) (i : Nat)
    (qcd : ChemistryDict) (d : ℚ) (backend : Option Backend)
    (algorithm : AlgorithmConfig) (r : SolverResult)
    (h : solver (subrountineConfig qcd d algorithm) backend = .ok r) :
    subrountine solver i qcd d backend algorithm
      = (.ok (i, d, r.energy, r.hf_energy),
         [(subrountineConfig qcd d algorithm, backend)])
    ∧ (subrountineConfig qcd d algorithm).pyscf.atom = molecule (d/2)
    ∧ (subrountineConfig qcd d algorithm).algorithm = algorithm
    ∧ moleculeGeometry (d/2) = [("H", 0, 0, -(d/2)), ("H", 0, 0, d/2)]
    ∧ (d/2) - (-(d/2)) = d := by
  refine ⟨?_, rfl, rfl, rfl, by ring⟩
  simp only [subrountine, h]

/-- Witness for C2 at step 3, distance 1, the `ExactEigensolver`
algorithm and backend `None`, with the always-succeeding solver. -/
theorem subrountine_unit_of_work_witness :
    subrountine constOkSolver 3 qiskit_chemistry_dict 1 none (algorithmAt 1)
      = (.ok (3, 1, wRes.energy, wRes.hf_energy),
         [(subrountineConfig qiskit_chemistry_dict 1 (algorithmAt 1), none)])
    ∧ (subrountineConfig qiskit_chemistry_dict 1 (algorithmAt 1)).pyscf.atom
        = molecule (1/2)
    ∧ (subrountineConfig qiskit_chemistry_dict 1 (algorithmAt 1)).algorithm
        = algorithmAt 1
    ∧ moleculeGeometry (1/2) = [("H", 0, 0, -(1/2)), ("H", 0, 0, 1/2)]
    ∧ (1:ℚ)/2 - (-(1/2)) = 1 :=
  subrountine_unit_of_work constOkSolver 3 qiskit_chemistry_dict 1 none
    (algorithmAt 1) wRes rfl

/-- C8: the distance for step `i` is `start + i*by/steps`; with exact
arithmetic this is `1/2 + i/40`, so the 21 distances run strictly
increasingly from `0.5` (step 0) to `1.0` (step 20) in increments of
`1/40 = 0.025`, and every submitted task — for either algorithm — uses
the distance of its step. -/
theorem distance_schedule (i j jj : Nat) (t : Task) (hij : i < j)
    (ht : t ∈ tasksForAlg qiskit_chemistry_dict jj) :
    distanceAt i = start + (i : ℚ) * by_ / (steps : ℚ)
    ∧ distanceAt i = 1/2 + (i : ℚ) * (1/40)
    ∧ distanceAt 0 = 1/2
    ∧ distanceAt steps = 1
    ∧ distanceAt i < distanceAt j
    ∧ distanceAt (i+1) - distanceAt i = 1/40
    ∧ (1/40 : ℚ) = 0.025
    ∧ t.d = distanceAt t.i := by
  have hcast : (i : ℚ) < (j : ℚ) := by exact_mod_cast hij
  refine ⟨rfl, ?_, ?_, ?_, ?_, ?_, by norm_num, ?_⟩
  · simp [distanceAt, start, by_, steps]
    ring
  · norm_num [distanceAt, start, by_, steps]
  · norm_num [distanceAt, start, by_, steps]
  · simp only [distanceAt, start, by_, steps]
    have h40 : (0:ℚ) < 1/2/20 := by norm_num
    nlinarith [mul_lt_mul_of_pos_right hcast h40]
  · simp [distanceAt, start, by_, steps]
    ring
  · simp only [tasksForAlg, List.mem_map] at ht
    obtain ⟨a, _, rfl⟩ := ht
    rfl

/-- Witness for C8 at steps 0 < 1, with the IQPE task for step 0. -/
theorem distance_schedule_witness :
    distanceAt 0 = start + ((0:Nat) : ℚ) * by_ / (steps : ℚ)
    ∧ distanceAt 0 = 1/2 + ((0:Nat) : ℚ) * (1/40)
    ∧ distanceAt 0 = 1/2
    ∧ distanceAt steps = 1
    ∧ distanceAt 0 < distanceAt 1
    ∧ distanceAt (0+1) - distanceAt 0 = 1/40
    ∧ (1/40 : ℚ) = 0.025
    ∧ iqpeTask0.d = distanceAt iqpeTask0.i :=
  distance_schedule 0 1 0 iqpeTask0 (by norm_num)
    (List.mem_map.mpr ⟨0, List.mem_range.mpr (by norm_num), rfl⟩)

/-- C7: the energy-difference cell plots exactly two curves, both
differences against the exact baseline `energies[1]`: Hartree-Fock minus
`energies[1]` and `energies[0]` (IQPE) minus `energies[1]`, each against
the `distances` array. -/
theorem difference_plot_curves (distances hf_energies : Nat → ℚ)
    (energies : Nat → Nat → ℚ) :
    ∃ c1 c2, diffPlotCell distances hf_energies energies = [c1, c2]
      ∧ c1.xs = distances
      ∧ c2.xs = distances
      ∧ c1.label = "Hartree-Fock"
      ∧ c2.label = "IQPE"
      ∧ (∀ k, c1.ys k = hf_energies k - energies 1 k)
      ∧ (∀ k, c2.ys k = energies 0 k - energies 1 k) :=
  ⟨_, _, rfl, rfl, rfl, rfl, rfl, fun _ => rfl, fun _ => rfl⟩

/-- C3: the sweep submits exactly `len(algorithms) * (steps+1) = 42`
units of work — exactly one for every (algorithm, step) pair — with
algorithm index 0 (IQPE) paired with the `qasm_simulator` backend and
algorithm index 1 (ExactEigensolver) paired with backend `None`. -/
theorem sweep_submissions :
    futuresUpTo qiskit_chemistry_dict 1
      = tasksForAlg qiskit_chemistry_dict 0 ++ tasksForAlg qiskit_chemistry_dict 1
    ∧ (futuresUpTo qiskit_chemistry_dict 1).length
        = List.length algorithms * (steps + 1)
    ∧ List.length algorithms * (steps + 1) = 42
    ∧ (∀ t ∈ tasksForAlg qiskit_chemistry_dict 0,
        t.algorithm = algorithmAt 0 ∧ t.backend = some Backend.qasm_simulator)
    ∧ (∀ t ∈ tasksForAlg qiskit_chemistry_dict 1,
        t.algorithm = algorithmAt 1 ∧ t.backend = none)
    ∧ (algorithmAt 0).name = "IQPE"
    ∧ (algorithmAt 1).name = "ExactEigensolver"
    ∧ ∀ j < List.length algorithms, ∀ i < steps + 1,
        (futuresUpTo qiskit_chemistry_dict 1).countP
          (fun t => decide (t.i = i ∧ t.algorithm = algorithmAt j)) = 1 :=
  ⟨futuresUpTo_one qiskit_chemistry_dict, by decide, by decide, by decide,
   by decide, rfl, rfl, by decide⟩

/-- C4: the whole sweep leaves the shared configuration dictionary in
the driver unchanged.  In the heap model: the shared dictionary lives at
address 0; every one of the 42 submissions deep-copies it to a fresh,
pairwise-distinct, nonzero address, each worker mutates only its own
copy, and after all workers have run the cell at address 0 still holds
the originally assembled dictionary. -/
theorem shared_dict_unchanged :
    Heap.get initialHeap 0 = qiskit_chemistry_dict
    ∧ Heap.get heapAfterSweep 0 = qiskit_chemistry_dict
    ∧ (∀ t ∈ (submitAll initialHeap 0).2, t.addr ≠ 0)
    ∧ ((submitAll initialHeap 0).2.map STask.addr).Nodup
    ∧ (submitAll initialHeap 0).2.length = 42 := by
  refine ⟨rfl, by decide, by decide, by decide, by decide⟩

/-- C6: when the solver raises inside a unit of work, `future.result()`
re-raises in the driver: the aggregation pass that reaches that future —
after any prefix of successfully consumed futures — terminates with that
exception, leaving the arrays exactly as the prefix left them, so no
energy/reference-energy values for the failing unit are ever written. -/
theorem solver_exception_propagates {E : Type} (solver : Solver E)
    (j : Nat) (pre post : List Task) (t : Task) (st : Arrays) (e : E)
    (hpre : ∀ u ∈ pre, ∃ v, runTask solver u = .ok v)
    (ht : runTask solver t = .error e) :
    aggregatePass solver j (pre ++ t :: post) st
      = ((aggregatePass solver j pre st).1, some e)
    ∧ (aggregatePass solver j pre st).2 = none := by
  refine ⟨?_, aggregatePass_no_error solver j pre st hpre⟩
  induction pre generalizing st with
  | nil => simp [aggregatePass, ht]
  | cons u rest ih =>
    obtain ⟨v, hv⟩ := hpre u (List.mem_cons_self u rest)
    obtain ⟨i0, d0, en0, hf0⟩ := v
    simp only [List.cons_append, aggregatePass, hv]
    exact ih _ (fun u2 hu2 => hpre u2 (List.mem_cons_of_mem _ hu2))

/-- Witness for C6: the always-raising solver on the IQPE step-0 future,
with an empty prefix and fresh arrays. -/
theorem solver_exception_propagates_witness :
    aggregatePass failSolver 1 ([] ++ iqpeTask0 :: []) Arrays.empty
      = ((aggregatePass failSolver 1 [] Arrays.empty).1, some "solver raised")
    ∧ (aggregatePass failSolver 1 [] Arrays.empty).2 = none :=
  solver_exception_propagates failSolver 1 [] [] iqpeTask0 Arrays.empty
    "solver raised" (fun u hu => absurd hu (List.not_mem_nil u)) rfl

/-- C9: if every unit of work completes without raising then, whatever
completion orders the two `as_completed` passes see, both aggregation
loops terminate without error and every entry of `distances`,
`hf_energies` and both rows of `energies` (step indices `0..steps`) has
been assigned at least once — no `np.empty` slot survives. -/
theorem sweep_fills_all_slots {E : Type} (solver : Solver E)
    (ord0 ord1 : List Task) (i : Nat)
    (h0 : ord0.Perm (futuresUpTo qiskit_chemistry_dict 0))
    (h1 : ord1.Perm (futuresUpTo qiskit_chemistry_dict 1))
    (hok : ∀ t ∈ futuresUpTo qiskit_chemistry_dict 1,
      ∃ v, runTask solver t = .ok v)
    (hi : i < steps + 1) :
    (runSweepAgg solver ord0 ord1).2 = none
    ∧ ((runSweepAgg solver ord0 ord1).1.energies 0 i).isSome
    ∧ ((runSweepAgg solver ord0 ord1).1.energies 1 i).isSome
    ∧ ((runSweepAgg solver ord0 ord1).1.hf_energies i).isSome
    ∧ ((runSweepAgg solver ord0 ord1).1.distances i).isSome := by
  have hok0 : ∀ t ∈ ord0, ∃ v, runTask solver t = .ok v := by
    intro t ht
    refine hok t ?_
    rw [futuresUpTo_one]
    exact List.mem_append_left _ ((futuresUpTo_zero qiskit_chemistry_dict) ▸ h0.subset ht)
  have hok1 : ∀ t ∈ ord1, ∃ v, runTask solver t = .ok v :=
    fun t ht => hok t (h1.subset ht)
  have hmem0 : taskAt qiskit_chemistry_dict 0 i ∈ ord0 := by
    rw [h0.mem_iff, futuresUpTo_zero]
    exact List.mem_map.mpr ⟨i, List.mem_range.mpr hi, rfl⟩
  have hmem1 : taskAt qiskit_chemistry_dict 1 i ∈ ord1 := by
    rw [h1.mem_iff, futuresUpTo_one]
    exact List.mem_append_right _
      (List.mem_map.mpr ⟨i, List.mem_range.mpr hi, rfl⟩)
  rcases hp0 : aggregatePass solver 0 ord0 Arrays.empty with ⟨st0, err0⟩
  have herr0 : err0 = none := by
    have hne := aggregatePass_no_error solver 0 ord0 Arrays.empty hok0
    rw [hp0] at hne
    exact hne
  subst herr0
  have hrun : runSweepAgg solver ord0 ord1 = aggregatePass solver 1 ord1 st0 := by
    simp [runSweepAgg, hp0]
  have hcov0 := aggregatePass_covers solver 0 ord0 Arrays.empty _ hmem0 hok0
  rw [hp0] at hcov0
  have hcov1 := aggregatePass_covers solver 1 ord1 st0 _ hmem1 hok1
  have hmono := aggregatePass_isSome_mono solver 1 ord1 st0 0 i
  rw [hrun]
  exact ⟨aggregatePass_no_error solver 1 ord1 st0 hok1,
    hmono.1 hcov0.1, hcov1.1, hcov1.2.1, hcov1.2.2⟩

/-- Witness for C9: the always-succeeding solver, submission order as
completion order for both passes, slot index 0. -/
theorem sweep_fills_all_slots_witness :
    (runSweepAgg constOkSolver (futuresUpTo qiskit_chemistry_dict 0)
      (futuresUpTo qiskit_chemistry_dict 1)).2 = none
    ∧ ((runSweepAgg constOkSolver (futuresUpTo qiskit_chemistry_dict 0)
        (futuresUpTo qiskit_chemistry_dict 1)).1.energies 0 0).isSome
    ∧ ((runSweepAgg constOkSolver (futuresUpTo qiskit_chemistry_dict 0)
        (futuresUpTo qiskit_chemistry_dict 1)).1.energies 1 0).isSome
    ∧ ((runSweepAgg constOkSolver (futuresUpTo qiskit_chemistry_dict 0)
        (futuresUpTo qiskit_chemistry_dict 1)).1.hf_energies 0).isSome
    ∧ ((runSweepAgg constOkSolver (futuresUpTo qiskit_chemistry_dict 0)
        (futuresUpTo qiskit_chemistry_dict 1)).1.distances 0).isSome :=
  sweep_fills_all_slots constOkSolver _ _ 0 (List.Perm.refl _)
    (List.Perm.refl _)
    (fun t _ => ⟨(t.i, t.d, wRes.energy, wRes.hf_energy), rfl⟩)
    (by norm_num)

/-- C1 fails on the code: the `futures` list is never cleared between
the two passes, so pass `j=1`'s `as_completed(futures)` re-yields the 21
algorithm-0 futures.  Concretely: the pass-1 completion order
`ord1Swapped` is a legal one (a permutation of the accumulated futures
list); the algorithm-0 step-0 future is consumed in both passes (twice
over the sweep); and under that order the sweep finishes without error
with `energies[1][0]` holding the energy the IQPE unit produced (-10
under `sepSolver`), not the energy the ExactEigensolver unit for step 0
returned (-20) — the write is keyed by the pass index, not by the index
of the algorithm that produced the result. -/
theorem pass_one_reconsumes_and_misfiles_results :
    ord1Swapped.Perm (futuresUpTo qiskit_chemistry_dict 1)
    ∧ (futuresUpTo qiskit_chemistry_dict 0).countP
        (fun t => decide (t.i = 0 ∧ t.algorithm = algorithmAt 0))
      + ord1Swapped.countP
          (fun t => decide (t.i = 0 ∧ t.algorithm = algorithmAt 0)) = 2
    ∧ (runSweepAgg sepSolver (futuresUpTo qiskit_chemistry_dict 0)
        ord1Swapped).2 = none
    ∧ (runSweepAgg sepSolver (futuresUpTo qiskit_chemistry_dict 0)
        ord1Swapped).1.energies 1 0 = some (-10)
    ∧ sepSolver (subrountineConfig qiskit_chemistry_dict (distanceAt 0)
        (algorithmAt 0)) (backendAt 0) = .ok { energy := -10, hf_energy := -5 }
    ∧ sepSolver (subrountineConfig qiskit_chemistry_dict (distanceAt 0)
        (algorithmAt 1)) (backendAt 1) = .ok { energy := -20, hf_energy := -5 } := by
  refine ⟨?_, by decide, by decide, by decide, rfl, rfl⟩
  rw [futuresUpTo_one]
  exact List.perm_append_comm

end H2IQPE
